import Mathlib

/-!
Formal model of the edit-throttling / token-acquisition core of the
`aiowiki` MediaWiki client (`src/aiowiki/http.py`, `src/aiowiki/page.py`).

The Python code is embedded shallowly:
* JSON values are an inductive `Json`; Python dicts are insertion-ordered
  association lists with unique keys (`Dict`), with Python's assignment
  semantics (`setKey`: replace in place if present, else append).
* Python exceptions relevant to the core become the `Exc` type; fallible
  code returns `Except Exc α`.
* Wall-clock time is idealized as `ℚ`; `asyncio.sleep d` advances the
  clock by exactly `d`.  `HTTPClient` state is `ClientState`; each method
  returns its result together with the updated state, the updated clock
  and a trace of externally visible events (lock, sleep, HTTP traffic).
* The event-loop lock discipline of `modify_page` is additionally modelled
  as a two-task interleaved transition system (`LockSys`) to state mutual
  exclusion of the critical sections.
-/

namespace Aiowiki

/-- Python/JSON values as parsed by `await r.json()`. -/
inductive Json where
  | null
  | bool (b : Bool)
  | num (n : Int)
  | str (s : String)
  | arr (xs : List Json)
  | obj (fields : List (String × Json))

/-- Python truthiness of a JSON value (`if data.get("error"):`). -/
def Json.truthy : Json → Bool
  | .null => false
  | .bool b => b
  | .num n => n != 0
  | .str s => s ≠ ""
  | .arr xs => !xs.isEmpty
  | .obj fs => !fs.isEmpty

/-- A Python dict of JSON values: insertion-ordered association list. -/
abbrev Dict := List (String × Json)

/-- First-match lookup, i.e. Python `d.get(k)` on a dict with unique keys. -/
def lookup? : Dict → String → Option Json
  | [], _ => none
  | (k', v) :: rest, k => if k' = k then some v else lookup? rest k

/-- Python `d[k] = v`: replace the value in place when the key exists,
append at the end otherwise. -/
def setKey : Dict → String → Json → Dict
  | [], k, v => [(k, v)]
  | (k', v') :: rest, k, v =>
      if k' = k then (k, v) :: rest else (k', v') :: setKey rest k v

/-- The Python exceptions that can escape the modelled methods. -/
inductive Exc where
  | keyError (k : String)
  | typeError
  | tokenGetError (info : Json)
  | editError (info : Json)

/-- Python subscription `j[k]` with a string key: a `KeyError` on a dict
missing the key, a `TypeError` on any non-dict value. -/
def Json.index : Json → String → Except Exc Json
  | .obj fs, k =>
      match lookup? fs k with
      | some v => .ok v
      | none => .error (.keyError k)
  | _, _ => .error .typeError

/-- The JSON path `data["query"]["tokens"][f"{type}token"]` read by
`HTTPClient.get_token` (src/aiowiki/http.py line 30). -/
def tokenPath (type : String) (data : Json) : Except Exc Json :=
  data.index "query" >>= fun q => q.index "tokens" >>= fun ts =>
    ts.index (type ++ "token")

/-- The JSON path `data["error"]["info"]`. -/
def errorInfo (data : Json) : Except Exc Json :=
  data.index "error" >>= fun e => e.index "info"

/-- Body of `HTTPClient.get_token` (src/aiowiki/http.py lines 29-32)
applied to the parsed JSON of the token-query response: `try` the token
path; on `KeyError` raise `TokenGetError(data["error"]["info"])` — where
evaluating that argument may itself raise. -/
def get_token_extract (type : String) (data : Json) : Except Exc Json :=
  match tokenPath type data with
  | .ok v => .ok v
  | .error (.keyError _) =>
      match errorInfo data with
      | .ok info => .error (.tokenGetError info)
      | .error e => .error e
  | .error e => .error e

example :
    get_token_extract "csrf"
      (Json.obj [("query", Json.obj [("tokens",
        Json.obj [("csrftoken", Json.str "abc+\\")])])])
      = .ok (Json.str "abc+\\") := rfl

example :
    get_token_extract "csrf" (Json.obj [("error",
      Json.obj [("code", Json.str "x"), ("info", Json.str "denied")])])
      = .error (.tokenGetError (Json.str "denied")) := rfl

example : get_token_extract "csrf" (Json.obj [])
    = .error (.keyError "error") := rfl

/-- The mutable fields of `HTTPClient` that the modelled methods read or
write (src/aiowiki/http.py lines 11-17).  The `aiohttp` session is
replaced by explicitly supplied parsed responses, and the event-loop
clock is threaded separately.  The edit lock itself is modelled by the
transition system `LockSys` below; within a single sequential call it
shows up as `lockAcquire`/`lockRelease` trace events. -/
structure ClientState where
  url : String
  logged_in : Bool
  last_edit : ℚ

/-- Externally visible events of one method call, in order. -/
inductive Event where
  | lockAcquire
  | lockRelease
  | sleep (d : ℚ)
  | tokenRequest (type : String)
  | httpGet (url : String)
  | httpPost (url : String) (body : Dict)

/-- Minimum interval between mutating submissions
(src/aiowiki/http.py line 6). -/
def THROTTLE : ℚ := 10

/-- The URL built by `HTTPClient.get_token` (src/aiowiki/http.py line 25). -/
def token_query_url (st : ClientState) (type : String) : String :=
  st.url ++ "?action=query&meta=tokens&type=" ++ type ++ "&format=json"

/-- `HTTPClient.get_token` (src/aiowiki/http.py lines 23-32): build the
query URL, GET it (the parsed response is the parameter `resp`), and
extract the token.  Returns the result together with the (unchanged)
client state, the (unchanged) clock, and the trace of events. -/
def get_token (st : ClientState) (clock : ℚ) (type : String) (resp : Json) :
    Except Exc Json × ClientState × ℚ × List Event :=
  (get_token_extract type resp, st, clock, [Event.httpGet (token_query_url st type)])

/-- Lines 189-190 of src/aiowiki/http.py applied to the parsed response
of the POST: `if data.get("error"): raise EditError(data["error"]["info"])`
— note `data.get("error")` is a truthiness test, and evaluating
`data["error"]["info"]` may itself raise. -/
def postCheck (data : Json) : Except Exc Bool :=
  match data with
  | .obj fs =>
      match lookup? fs "error" with
      | some v =>
          if v.truthy then
            match v.index "info" with
            | .ok i => .error (.editError i)
            | .error e => .error e
          else .ok true
      | none => .ok true
  | _ => .error .typeError

/-- Everything one call to `modify_page` produces: the Python return
value or exception, the caller's dict object as it stands after the call
(Python mutates it in place), the updated client state, the clock at
return, and the event trace. -/
structure ModResult where
  result : Except Exc Bool
  dict : Dict
  state : ClientState
  clock : ℚ
  trace : List Event

/-- `HTTPClient.modify_page` (src/aiowiki/http.py lines 172-191).
`clock` is the event-loop time on entry (line 175's read);
`asyncio.sleep d` advances the clock by exactly `d`; line 179 re-reads
the clock after the sleep.  `tokResp` is the parsed response the token
endpoint would return (read only when `logged_in`), `postResp` the
parsed response to the POST.  The nested `get_token` call is recorded as
a single `tokenRequest` event. -/
def modify_page (action : String) (json : Dict) (st : ClientState)
    (clock : ℚ) (tokResp postResp : Json) : ModResult :=
  let elapsed := clock - st.last_edit
  let sleepTrace : List Event :=
    if elapsed < THROTTLE then [Event.sleep (THROTTLE - elapsed)] else []
  let clock1 := if elapsed < THROTTLE then clock + (THROTTLE - elapsed) else clock
  let st1 : ClientState := { st with last_edit := clock1 }
  let submit : Json → List Event → ModResult := fun tok tokTrace =>
    let json1 := setKey (setKey (setKey json "action" (Json.str action))
        "format" (Json.str "json")) "token" tok
    { result := postCheck postResp, dict := json1, state := st1, clock := clock1,
      trace := Event.lockAcquire :: (sleepTrace ++ tokTrace ++
        [Event.httpPost st.url json1, Event.lockRelease]) }
  if st.logged_in then
    match get_token_extract "csrf" tokResp with
    | .error e =>
        { result := .error e, dict := json, state := st1, clock := clock1,
          trace := Event.lockAcquire :: (sleepTrace ++
            [Event.tokenRequest "csrf", Event.lockRelease]) }
    | .ok tok => submit tok [Event.tokenRequest "csrf"]
  else submit (Json.str "+\\") []

/-- `HTTPClient.edit_page` (src/aiowiki/http.py lines 164-166). -/
def edit_page (json : Dict) (st : ClientState) (clock : ℚ)
    (tokResp postResp : Json) : ModResult :=
  modify_page "edit" json st clock tokResp postResp

/-- `HTTPClient.move_page` (src/aiowiki/http.py lines 168-170). -/
def move_page (json : Dict) (st : ClientState) (clock : ℚ)
    (tokResp postResp : Json) : ModResult :=
  modify_page "move" json st clock tokResp postResp

/-- The dict built by `Page.edit` (src/aiowiki/page.py line 99) before it
is passed to `edit_page`. -/
def page_edit_dict (title content summary : String) : Dict :=
  [("title", Json.str title), ("text", Json.str content),
   ("summary", Json.str summary)]

/-! ### The lock discipline of `modify_page` as a two-task transition system

`modify_page` wraps its whole body in `async with self.lock_edit`
(src/aiowiki/http.py line 174).  To state mutual exclusion for two
concurrent callers we model each task's position in `modify_page` as a
phase, and the `asyncio.Lock` as `none`/`some taskId`.  A task may only
enter the critical region (`throttle`/`token`/`post`, lines 175-191)
when the lock is free, and the lock is released exactly when the task
leaves the `async with` block. -/

/-- A task's position in `modify_page`. -/
inductive Phase where
  | start
  | throttle
  | token
  | post
  | done

/-- The phases inside the `async with self.lock_edit` block, i.e. the
token-acquisition-to-submission critical section together with the
pacing wait that precedes it. -/
def Phase.inCritical : Phase → Bool
  | .throttle => true
  | .token => true
  | .post => true
  | _ => false

/-- Two tasks (A and B) concurrently executing `modify_page`, plus the
single `lock_edit`: `none` when free, `some false`/`some true` when held
by A/B. -/
structure LockSys where
  lock : Option Bool
  pA : Phase
  pB : Phase

/-- One interleaved step of either task: acquire the lock when free,
advance through the critical section, release on exit. -/
inductive LockStep : LockSys → LockSys → Prop where
  | acquireA (s : LockSys) (h1 : s.lock = none) (h2 : s.pA = .start) :
      LockStep s ⟨some false, .throttle, s.pB⟩
  | stampA (s : LockSys) (h : s.pA = .throttle) : LockStep s ⟨s.lock, .token, s.pB⟩
  | submitA (s : LockSys) (h : s.pA = .token) : LockStep s ⟨s.lock, .post, s.pB⟩
  | releaseA (s : LockSys) (h : s.pA = .post) : LockStep s ⟨none, .done, s.pB⟩
  | acquireB (s : LockSys) (h1 : s.lock = none) (h2 : s.pB = .start) :
      LockStep s ⟨some true, s.pA, .throttle⟩
  | stampB (s : LockSys) (h : s.pB = .throttle) : LockStep s ⟨s.lock, s.pA, .token⟩
  | submitB (s : LockSys) (h : s.pB = .token) : LockStep s ⟨s.lock, s.pA, .post⟩
  | releaseB (s : LockSys) (h : s.pB = .post) : LockStep s ⟨none, s.pA, .done⟩

/-- Both tasks about to call `modify_page`, lock free. -/
def initSys : LockSys := ⟨none, Phase.start, Phase.start⟩

/-- States the two-task system can reach from `initSys`. -/
def Reachable (s : LockSys) : Prop :=
  Relation.ReflTransGen LockStep initSys s

/-- A task is inside the locked region only while it holds the lock. -/
def LockInv (s : LockSys) : Prop :=
  (s.pA.inCritical = true → s.lock = some false) ∧
  (s.pB.inCritical = true → s.lock = some true)

lemma lockInv_init : LockInv initSys := by
  constructor <;> intro h <;> simp [initSys, Phase.inCritical] at h

lemma lockInv_step (s s' : LockSys) (hinv : LockInv s) (hstep : LockStep s s') :
    LockInv s' := by
  cases hstep with
  | acquireA h1 h2 =>
      refine ⟨fun _ => rfl, fun hB => ?_⟩
      have hB' := hinv.2 hB
      rw [h1] at hB'
      exact absurd hB' (by simp)
  | stampA h =>
      exact ⟨fun _ => hinv.1 (by rw [h]; rfl), fun hB => hinv.2 hB⟩
  | submitA h =>
      exact ⟨fun _ => hinv.1 (by rw [h]; rfl), fun hB => hinv.2 hB⟩
  | releaseA h =>
      refine ⟨fun hA => ?_, fun hB => ?_⟩
      · simp [Phase.inCritical] at hA
      · have hA' := hinv.1 (by rw [h]; rfl)
        have hB' := hinv.2 hB
        rw [hA'] at hB'
        exact absurd hB' (by simp)
  | acquireB h1 h2 =>
      refine ⟨fun hA => ?_, fun _ => rfl⟩
      have hA' := hinv.1 hA
      rw [h1] at hA'
      exact absurd hA' (by simp)
  | stampB h =>
      exact ⟨fun hA => hinv.1 hA, fun _ => hinv.2 (by rw [h]; rfl)⟩
  | submitB h =>
      exact ⟨fun hA => hinv.1 hA, fun _ => hinv.2 (by rw [h]; rfl)⟩
  | releaseB h =>
      refine ⟨fun hA => ?_, fun hB => ?_⟩
      · have hA' := hinv.1 hA
        have hB' := hinv.2 (by rw [h]; rfl)
        rw [hA'] at hB'
        exact absurd hB' (by simp)
      · simp [Phase.inCritical] at hB

lemma reachable_lockInv (s : LockSys) (h : Reachable s) : LockInv s := by
  induction h with
  | refl => exact lockInv_init
  | tail _ hstep ih => exact lockInv_step _ _ ih hstep

/-! ### Helper lemmas about dicts, exceptions and `modify_page` -/

lemma lookup_setKey_self (d : Dict) (k : String) (v : Json) :
    lookup? (setKey d k v) k = some v := by
  induction d with
  | nil => simp [setKey, lookup?]
  | cons p rest ih =>
      obtain ⟨k', v'⟩ := p
      by_cases h : k' = k
      · subst h
        simp [setKey, lookup?]
      · simp [setKey, lookup?, h, ih]

lemma lookup_setKey_other (d : Dict) (k k2 : String) (v : Json) (h : k2 ≠ k) :
    lookup? (setKey d k v) k2 = lookup? d k2 := by
  induction d with
  | nil => simp [setKey, lookup?, h.symm]
  | cons p rest ih =>
      obtain ⟨k', v'⟩ := p
      by_cases hk : k' = k
      · subst hk
        simp [setKey, lookup?, h.symm]
      · simp [setKey, lookup?, hk, ih]

lemma index_error_shape (j : Json) (k : String) (e : Exc)
    (h : Json.index j k = .error e) :
    (∃ s, e = .keyError s) ∨ e = .typeError := by
  cases j with
  | obj fs =>
      simp only [Json.index] at h
      cases hl : lookup? fs k <;> rw [hl] at h
      · injection h with h'
        exact Or.inl ⟨k, h'.symm⟩
      · exact absurd h (by simp)
  | null => injection h with h'; exact Or.inr h'.symm
  | bool b => injection h with h'; exact Or.inr h'.symm
  | num n => injection h with h'; exact Or.inr h'.symm
  | str s => injection h with h'; exact Or.inr h'.symm
  | arr xs => injection h with h'; exact Or.inr h'.symm

lemma errorInfo_error_shape (d : Json) (e : Exc) (h : errorInfo d = .error e) :
    (∃ s, e = .keyError s) ∨ e = .typeError := by
  unfold errorInfo at h
  cases hd : Json.index d "error" with
  | ok v =>
      rw [hd] at h
      simp only [bind, Except.bind] at h
      exact index_error_shape v "info" e h
  | error e2 =>
      rw [hd] at h
      simp only [bind, Except.bind, Except.error.injEq] at h
      subst h
      exact index_error_shape d "error" e2 hd

lemma tokenPath_error_shape (t : String) (d : Json) (e : Exc)
    (h : tokenPath t d = .error e) :
    (∃ s, e = .keyError s) ∨ e = .typeError := by
  unfold tokenPath at h
  cases h1 : Json.index d "query" with
  | error e1 =>
      rw [h1] at h
      simp only [bind, Except.bind, Except.error.injEq] at h
      subst h
      exact index_error_shape d "query" e1 h1
  | ok q =>
      rw [h1] at h
      simp only [bind, Except.bind] at h
      cases h2 : Json.index q "tokens" with
      | error e2 =>
          rw [h2] at h
          simp only [bind, Except.bind, Except.error.injEq] at h
          subst h
          exact index_error_shape q "tokens" e2 h2
      | ok ts =>
          rw [h2] at h
          simp only [bind, Except.bind] at h
          exact index_error_shape ts (t ++ "token") e h

lemma get_token_extract_error_shape (t : String) (d : Json) (e : Exc)
    (h : get_token_extract t d = .error e) :
    (∃ s, e = .keyError s) ∨ e = .typeError ∨ ∃ i, e = .tokenGetError i := by
  cases htp : tokenPath t d with
  | ok v =>
      simp only [get_token_extract, htp] at h
      exact absurd h (by simp)
  | error e1 =>
      cases e1 with
      | keyError k =>
          simp only [get_token_extract, htp] at h
          cases hei : errorInfo d with
          | ok i =>
              rw [hei] at h
              injection h with h'
              exact Or.inr (Or.inr ⟨i, h'.symm⟩)
          | error e2 =>
              rw [hei] at h
              injection h with h'
              rcases errorInfo_error_shape d e2 hei with ⟨s, hs⟩ | hs
              · exact Or.inl ⟨s, by rw [← h', hs]⟩
              · exact Or.inr (Or.inl (by rw [← h', hs]))
      | typeError =>
          simp only [get_token_extract, htp] at h
          injection h with h'
          exact Or.inr (Or.inl h'.symm)
      | tokenGetError i =>
          rcases tokenPath_error_shape t d _ htp with ⟨s, hs⟩ | hs <;> simp at hs
      | editError i =>
          rcases tokenPath_error_shape t d _ htp with ⟨s, hs⟩ | hs <;> simp at hs

/-- The value line 179 of src/aiowiki/http.py stores into `last_edit`:
the event-loop clock as re-read after the pacing wait, starting from
stamp `le` and entry clock `c`. -/
def nextStamp (le c : ℚ) : ℚ :=
  if c - le < THROTTLE then c + (THROTTLE - (c - le)) else c

lemma nextStamp_eq_max (le c : ℚ) : nextStamp le c = max (le + THROTTLE) c := by
  unfold nextStamp
  split_ifs with h
  · have he : c + (THROTTLE - (c - le)) = le + THROTTLE := by ring
    rw [he, max_eq_left (by linarith)]
  · rw [max_eq_right (by linarith)]

lemma modify_page_state_eq (a : String) (j : Dict) (st : ClientState)
    (c : ℚ) (tr pr : Json) :
    (modify_page a j st c tr pr).state =
      ⟨st.url, st.logged_in, nextStamp st.last_edit c⟩ := by
  obtain ⟨u, lin, le⟩ := st
  cases lin with
  | false => simp [modify_page, nextStamp]
  | true =>
      cases h : get_token_extract "csrf" tr <;> simp [modify_page, nextStamp, h]

lemma modify_page_clock_eq (a : String) (j : Dict) (st : ClientState)
    (c : ℚ) (tr pr : Json) :
    (modify_page a j st c tr pr).clock = nextStamp st.last_edit c := by
  obtain ⟨u, lin, le⟩ := st
  cases lin with
  | false => simp [modify_page, nextStamp]
  | true =>
      cases h : get_token_extract "csrf" tr <;> simp [modify_page, nextStamp, h]

lemma modify_page_sleep_of_lt (a : String) (j : Dict) (st : ClientState)
    (c : ℚ) (tr pr : Json) (h : c - st.last_edit < THROTTLE) :
    Event.sleep (THROTTLE - (c - st.last_edit)) ∈ (modify_page a j st c tr pr).trace := by
  obtain ⟨u, lin, le⟩ := st
  cases lin with
  | false => simp [modify_page, h]
  | true =>
      cases htok : get_token_extract "csrf" tr <;> simp [modify_page, h, htok]

/-! ### The claims -/

/-- **C5 counterexample**: on the response `{}` the token path is absent,
yet `get_token` does not fail with `TokenGetError` — the `KeyError`
raised while evaluating `data["error"]["info"]` inside the `except`
block escapes instead. -/
theorem get_token_missing_error_info_cex :
    get_token_extract "csrf" (Json.obj []) = .error (.keyError "error") ∧
    ¬ ∃ i, get_token_extract "csrf" (Json.obj []) = .error (.tokenGetError i) := by
  refine ⟨rfl, ?_⟩
  rintro ⟨i, hi⟩
  have h0 : get_token_extract "csrf" (Json.obj []) = .error (.keyError "error") := rfl
  rw [h0] at hi
  simp at hi

/-- **C5** (amended): `get_token` returns the value at
`response["query"]["tokens"]["<type>token"]` when that path is present,
and fails with `TokenGetError` carrying `response["error"]["info"]`
exactly when the token path fails with a `KeyError` and the error-info
path is present; otherwise the lookup failure propagates unconverted. -/
theorem get_token_spec (t : String) (data i : Json) :
    (∀ v, tokenPath t data = .ok v → get_token_extract t data = .ok v) ∧
    (get_token_extract t data = .error (.tokenGetError i) ↔
      ((∃ k, tokenPath t data = .error (.keyError k)) ∧ errorInfo data = .ok i)) := by
  constructor
  · intro v hv
    simp only [get_token_extract, hv]
  · constructor
    · intro h
      cases htp : tokenPath t data with
      | ok v =>
          simp only [get_token_extract, htp] at h
          exact absurd h (by simp)
      | error e1 =>
          cases e1 with
          | keyError k =>
              simp only [get_token_extract, htp] at h
              cases hei : errorInfo data with
              | ok j =>
                  rw [hei] at h
                  injection h with h'
                  injection h' with h''
                  subst h''
                  exact ⟨⟨k, rfl⟩, rfl⟩
              | error e2 =>
                  rw [hei] at h
                  injection h with h'
                  rcases errorInfo_error_shape data e2 hei with ⟨s, hs⟩ | hs <;>
                    rw [hs] at h' <;> simp at h'
          | typeError =>
              simp only [get_token_extract, htp] at h
              injection h with h'
              simp at h'
          | tokenGetError j =>
              rcases tokenPath_error_shape t data _ htp with ⟨s, hs⟩ | hs <;> simp at hs
          | editError j =>
              rcases tokenPath_error_shape t data _ htp with ⟨s, hs⟩ | hs <;> simp at hs
    · rintro ⟨⟨k, htp⟩, hei⟩
      simp only [get_token_extract, htp, hei]

/-- Witness for `get_token_spec` at a concrete token response. -/
theorem get_token_spec_wit :
    get_token_extract "csrf"
        (Json.obj [("query", Json.obj [("tokens",
          Json.obj [("csrftoken", Json.str "tok")])])])
      = .ok (Json.str "tok") :=
  (get_token_spec "csrf"
      (Json.obj [("query", Json.obj [("tokens",
        Json.obj [("csrftoken", Json.str "tok")])])]) Json.null).1
    (Json.str "tok") rfl

/-- **C8**: `get_token` leaves `url`, `logged_in`, `last_edit` and the
clock untouched, never acquires the edit lock and never sleeps. -/
theorem get_token_no_side_effects (st : ClientState) (c : ℚ) (ty : String)
    (resp : Json) :
    (get_token st c ty resp).2.1 = st ∧
    (get_token st c ty resp).2.2.1 = c ∧
    (get_token st c ty resp).2.1.url = st.url ∧
    (get_token st c ty resp).2.1.logged_in = st.logged_in ∧
    (get_token st c ty resp).2.1.last_edit = st.last_edit ∧
    Event.lockAcquire ∉ (get_token st c ty resp).2.2.2 ∧
    (∀ d, Event.sleep d ∉ (get_token st c ty resp).2.2.2) := by
  refine ⟨rfl, rfl, rfl, rfl, rfl, ?_, ?_⟩
  · simp [get_token]
  · intro d
    simp [get_token]

/-- Witness for `get_token_no_side_effects` at a concrete call. -/
theorem get_token_no_side_effects_wit :
    (get_token ⟨"https://w/api.php", false, 0⟩ 0 "csrf" Json.null).2.1 =
      ⟨"https://w/api.php", false, 0⟩ :=
  (get_token_no_side_effects ⟨"https://w/api.php", false, 0⟩ 0 "csrf" Json.null).1

/-- **C1 counterexample**: the response `{"error": {}}` contains a
top-level `error` entry, yet `modify_page` returns success — line 189
tests Python truthiness of `data.get("error")`, and the empty object is
falsy. -/
theorem modify_page_falsy_error_cex :
    (modify_page "edit" [] ⟨"https://w/api.php", false, 0⟩ 0 Json.null
        (Json.obj [("error", Json.obj [])])).result = Except.ok true ∧
    lookup? [("error", Json.obj [])] "error" = some (Json.obj []) :=
  ⟨rfl, rfl⟩

/-- **C1** (amended): for a submission that goes through (anonymous
session), `modify_page` raises `EditError` carrying
`response["error"]["info"]` exactly when the response has a top-level
`error` entry that is truthy and carries an `info` field; when the
`error` entry is absent — or present but falsy — it returns `True`. -/
theorem modify_page_editError_iff (u a : String) (le c : ℚ) (d : Dict)
    (tokResp : Json) (fs : List (String × Json)) (i : Json) :
    ((modify_page a d ⟨u, false, le⟩ c tokResp (Json.obj fs)).result =
        .error (.editError i) ↔
      ∃ v, lookup? fs "error" = some v ∧ v.truthy = true ∧
        Json.index v "info" = .ok i) ∧
    (lookup? fs "error" = none →
      (modify_page a d ⟨u, false, le⟩ c tokResp (Json.obj fs)).result = .ok true) ∧
    (∀ v, lookup? fs "error" = some v → v.truthy = false →
      (modify_page a d ⟨u, false, le⟩ c tokResp (Json.obj fs)).result = .ok true) := by
  have hres : (modify_page a d ⟨u, false, le⟩ c tokResp (Json.obj fs)).result =
      postCheck (Json.obj fs) := rfl
  refine ⟨?_, ?_, ?_⟩
  · rw [hres]
    constructor
    · intro h
      cases hl : lookup? fs "error" with
      | none =>
          simp only [postCheck, hl] at h
          exact absurd h (by simp)
      | some v =>
          simp only [postCheck, hl] at h
          split_ifs at h with hv
          · cases hix : Json.index v "info" with
            | ok j =>
                simp only [hix] at h
                injection h with h'
                injection h' with h''
                subst h''
                exact ⟨v, rfl, hv, hix⟩
            | error e =>
                simp only [hix] at h
                injection h with h'
                rcases index_error_shape v "info" e hix with ⟨s, hs⟩ | hs <;>
                  rw [hs] at h' <;> simp at h'
    · rintro ⟨v, hl, hv, hix⟩
      simp only [postCheck, hl, hv, hix]
      simp
  · intro hl
    rw [hres]
    simp only [postCheck, hl]
  · intro v hl hv
    rw [hres]
    simp only [postCheck, hl, hv]
    simp

lemma modify_page_dict_eq (a : String) (d : Dict) (st : ClientState)
    (c : ℚ) (tr pr : Json) (tok : Json)
    (htok : (if st.logged_in then get_token_extract "csrf" tr
             else Except.ok (Json.str "+\\")) = Except.ok tok) :
    (modify_page a d st c tr pr).dict =
      setKey (setKey (setKey d "action" (Json.str a)) "format" (Json.str "json"))
        "token" tok := by
  obtain ⟨u, lin, le⟩ := st
  cases lin with
  | false =>
      simp only [Bool.false_eq_true, if_false] at htok
      injection htok with h'
      subst h'
      rfl
  | true =>
      simp only [if_true] at htok
      simp [modify_page, htok]

lemma modify_page_post_mem (a : String) (d : Dict) (st : ClientState)
    (c : ℚ) (tr pr : Json) (tok : Json)
    (htok : (if st.logged_in then get_token_extract "csrf" tr
             else Except.ok (Json.str "+\\")) = Except.ok tok) :
    Event.httpPost st.url (modify_page a d st c tr pr).dict ∈
      (modify_page a d st c tr pr).trace := by
  obtain ⟨u, lin, le⟩ := st
  cases lin with
  | false =>
      by_cases hc : c - le < THROTTLE <;> simp [modify_page, hc]
  | true =>
      simp only [if_true] at htok
      by_cases hc : c - le < THROTTLE <;> simp [modify_page, hc, htok]

lemma modify_page_token_step_ok (a : String) (d : Dict) (st : ClientState)
    (c : ℚ) (tr pr : Json)
    (h : (modify_page a d st c tr pr).result = Except.ok true ∨
         ∃ i, (modify_page a d st c tr pr).result = Except.error (Exc.editError i)) :
    ∃ tok, (if st.logged_in then get_token_extract "csrf" tr
            else Except.ok (Json.str "+\\")) = Except.ok tok := by
  obtain ⟨u, lin, le⟩ := st
  cases lin with
  | false => exact ⟨Json.str "+\\", by simp⟩
  | true =>
      cases htok : get_token_extract "csrf" tr with
      | ok tok => exact ⟨tok, by simp [htok]⟩
      | error e =>
          have hres : (modify_page a d ⟨u, true, le⟩ c tr pr).result = .error e := by
            simp [modify_page, htok]
          rw [hres] at h
          rcases h with h | ⟨i, h⟩
          · exact absurd h (by simp)
          · injection h with h'
            subst h'
            rcases get_token_extract_error_shape _ _ _ htok with ⟨s, hs⟩ | hs | ⟨j, hs⟩ <;>
              simp at hs

/-- **C2**: an authenticated `modify_page` requests a token of type
"csrf" and injects exactly the requested token; an anonymous
`modify_page` never calls the token endpoint and injects the fixed
placeholder string `+\` instead. -/
theorem modify_page_token_scoping (a : String) (d : Dict) (st : ClientState)
    (c : ℚ) (tr pr : Json) :
    (st.logged_in = true →
      Event.tokenRequest "csrf" ∈ (modify_page a d st c tr pr).trace ∧
      ∀ tok, get_token_extract "csrf" tr = Except.ok tok →
        lookup? (modify_page a d st c tr pr).dict "token" = some tok) ∧
    (st.logged_in = false →
      (∀ ty, Event.tokenRequest ty ∉ (modify_page a d st c tr pr).trace) ∧
      lookup? (modify_page a d st c tr pr).dict "token" = some (Json.str "+\\")) := by
  obtain ⟨u, lin, le⟩ := st
  constructor
  · intro hl
    subst hl
    constructor
    · cases htok : get_token_extract "csrf" tr <;>
        by_cases hc : c - le < THROTTLE <;> simp [modify_page, htok, hc]
    · intro tok htok
      rw [modify_page_dict_eq a d ⟨u, true, le⟩ c tr pr tok (by simpa using htok)]
      exact lookup_setKey_self _ _ _
  · intro hl
    subst hl
    constructor
    · intro ty
      by_cases hc : c - le < THROTTLE <;> simp [modify_page, hc]
    · rw [modify_page_dict_eq a d ⟨u, false, le⟩ c tr pr (Json.str "+\\") (by simp)]
      exact lookup_setKey_self _ _ _

/-- Witness for `modify_page_token_scoping`: the anonymous side at a
concrete call. -/
theorem modify_page_token_scoping_wit :
    lookup? (modify_page "edit" [] ⟨"https://w/api.php", false, 0⟩ 0
        Json.null Json.null).dict "token" = some (Json.str "+\\") :=
  ((modify_page_token_scoping "edit" [] ⟨"https://w/api.php", false, 0⟩ 0
      Json.null Json.null).2 rfl).2

/-- **C3**: the submitted mapping is the caller's mapping plus exactly
the keys `action`, `format` and `token`; every other key is untouched. -/
theorem modify_page_field_injection (a : String) (d : Dict) (st : ClientState)
    (c : ℚ) (tr pr : Json) (tok : Json)
    (htok : (if st.logged_in then get_token_extract "csrf" tr
             else Except.ok (Json.str "+\\")) = Except.ok tok) :
    Event.httpPost st.url (modify_page a d st c tr pr).dict ∈
      (modify_page a d st c tr pr).trace ∧
    lookup? (modify_page a d st c tr pr).dict "action" = some (Json.str a) ∧
    lookup? (modify_page a d st c tr pr).dict "format" = some (Json.str "json") ∧
    lookup? (modify_page a d st c tr pr).dict "token" = some tok ∧
    ∀ k, k ≠ "action" → k ≠ "format" → k ≠ "token" →
      lookup? (modify_page a d st c tr pr).dict k = lookup? d k := by
  refine ⟨modify_page_post_mem a d st c tr pr tok htok, ?_, ?_, ?_, ?_⟩ <;>
    rw [modify_page_dict_eq a d st c tr pr tok htok]
  · rw [lookup_setKey_other _ _ _ _ (by simp), lookup_setKey_other _ _ _ _ (by simp),
      lookup_setKey_self]
  · rw [lookup_setKey_other _ _ _ _ (by simp), lookup_setKey_self]
  · exact lookup_setKey_self _ _ _
  · intro k hka hkf hkt
    rw [lookup_setKey_other _ _ _ _ hkt, lookup_setKey_other _ _ _ _ hkf,
      lookup_setKey_other _ _ _ _ hka]

/-- Witness for `modify_page_field_injection` at a concrete anonymous
call carrying one caller field. -/
theorem modify_page_field_injection_wit :
    lookup? (modify_page "edit" [("title", Json.str "T")]
        ⟨"https://w/api.php", false, 0⟩ 0 Json.null Json.null).dict "title" =
      lookup? [("title", Json.str "T")] "title" :=
  (modify_page_field_injection "edit" [("title", Json.str "T")]
      ⟨"https://w/api.php", false, 0⟩ 0 Json.null Json.null (Json.str "+\\")
      rfl).2.2.2.2 "title" (by simp) (by simp) (by simp)

/-- **C10**: any call that reaches submission (it returned `True` or
raised `EditError`) leaves the injected `action`, `format` and `token`
entries in the very mapping the caller passed in (`ModResult.dict`
models the caller's dict object after the call). -/
theorem modify_page_mutates_caller_dict (a : String) (d : Dict) (st : ClientState)
    (c : ℚ) (tr pr : Json)
    (h : (modify_page a d st c tr pr).result = Except.ok true ∨
         ∃ i, (modify_page a d st c tr pr).result = Except.error (Exc.editError i)) :
    lookup? (modify_page a d st c tr pr).dict "action" = some (Json.str a) ∧
    lookup? (modify_page a d st c tr pr).dict "format" = some (Json.str "json") ∧
    ∃ tok, lookup? (modify_page a d st c tr pr).dict "token" = some tok := by
  obtain ⟨tok, htok⟩ := modify_page_token_step_ok a d st c tr pr h
  rw [modify_page_dict_eq a d st c tr pr tok htok]
  refine ⟨?_, ?_, ⟨tok, lookup_setKey_self _ _ _⟩⟩
  · rw [lookup_setKey_other _ _ _ _ (by simp), lookup_setKey_other _ _ _ _ (by simp),
      lookup_setKey_self]
  · rw [lookup_setKey_other _ _ _ _ (by simp), lookup_setKey_self]

/-- Witness for `modify_page_mutates_caller_dict` at a concrete failed
edit (server rejects with `permissiondenied`). -/
theorem modify_page_mutates_caller_dict_wit :
    lookup? (modify_page "edit" [("title", Json.str "T")]
        ⟨"https://w/api.php", false, 0⟩ 0 Json.null
        (Json.obj [("error", Json.obj [("info", Json.str "permissiondenied")])])).dict
      "action" = some (Json.str "edit") :=
  (modify_page_mutates_caller_dict "edit" [("title", Json.str "T")]
      ⟨"https://w/api.php", false, 0⟩ 0 Json.null
      (Json.obj [("error", Json.obj [("info", Json.str "permissiondenied")])])
      (Or.inr ⟨Json.str "permissiondenied", rfl⟩)).1

/-- Witness for `modify_page_editError_iff`: the documented
`{"error": {"info": "permissiondenied"}}` response yields `EditError`
with exactly that string. -/
theorem modify_page_editError_iff_wit :
    (modify_page "edit" [] ⟨"https://w/api.php", false, 0⟩ 0 Json.null
        (Json.obj [("error", Json.obj [("info", Json.str "permissiondenied")])])).result
      = .error (.editError (Json.str "permissiondenied")) :=
  (modify_page_editError_iff "https://w/api.php" "edit" 0 0 [] Json.null
      [("error", Json.obj [("info", Json.str "permissiondenied")])]
      (Json.str "permissiondenied")).1.mpr
    ⟨Json.obj [("info", Json.str "permissiondenied")], rfl, rfl, rfl⟩

/-- **C4**: `last_edit` is stamped only after the pacing wait, and when
the elapsed time `δ` between two sequential `modify_page` calls is below
`THROTTLE` the second call sleeps for exactly the remaining `THROTTLE - δ`;
consequently the recorded timestamps of any two sequential calls are at
least `THROTTLE` apart. -/
theorem modify_page_pacing_gap (a1 a2 : String) (d1 d2 : Dict) (st : ClientState)
    (c δ : ℚ) (tr1 pr1 tr2 pr2 : Json) (r1 r2 : ModResult)
    (hr1 : r1 = modify_page a1 d1 st c tr1 pr1)
    (hr2 : r2 = modify_page a2 d2 r1.state (r1.clock + δ) tr2 pr2)
    (hδ : 0 ≤ δ) :
    THROTTLE ≤ r2.state.last_edit - r1.state.last_edit ∧
    (δ < THROTTLE → Event.sleep (THROTTLE - δ) ∈ r2.trace) := by
  have h1 : r1.state.last_edit = nextStamp st.last_edit c := by
    rw [hr1, modify_page_state_eq]
  have hc1 : r1.clock = nextStamp st.last_edit c := by
    rw [hr1, modify_page_clock_eq]
  have h2 : r2.state.last_edit = nextStamp r1.state.last_edit (r1.clock + δ) := by
    rw [hr2, modify_page_state_eq]
  constructor
  · rw [h2, hc1, h1, nextStamp_eq_max]
    have hmax := le_max_left (nextStamp st.last_edit c + THROTTLE)
      (nextStamp st.last_edit c + δ)
    linarith
  · intro hlt
    have heq : (r1.clock + δ) - r1.state.last_edit = δ := by
      rw [hc1, h1]
      ring
    have hmem := modify_page_sleep_of_lt a2 d2 r1.state (r1.clock + δ) tr2 pr2
      (by rw [heq]; exact hlt)
    rw [heq] at hmem
    rw [hr2]
    exact hmem

/-- Witness for `modify_page_pacing_gap`: two back-to-back edits issued
zero time-units apart. -/
theorem modify_page_pacing_gap_wit :
    THROTTLE ≤
      (modify_page "edit" []
          (modify_page "edit" [] ⟨"https://w/api.php", false, 0⟩ 0 Json.null Json.null).state
          ((modify_page "edit" [] ⟨"https://w/api.php", false, 0⟩ 0 Json.null Json.null).clock + 0)
          Json.null Json.null).state.last_edit -
        (modify_page "edit" [] ⟨"https://w/api.php", false, 0⟩ 0 Json.null Json.null).state.last_edit ∧
    ((0 : ℚ) < THROTTLE →
      Event.sleep (THROTTLE - 0) ∈
        (modify_page "edit" []
            (modify_page "edit" [] ⟨"https://w/api.php", false, 0⟩ 0 Json.null Json.null).state
            ((modify_page "edit" [] ⟨"https://w/api.php", false, 0⟩ 0 Json.null Json.null).clock + 0)
            Json.null Json.null).trace) :=
  modify_page_pacing_gap "edit" "edit" [] [] ⟨"https://w/api.php", false, 0⟩ 0 0
    Json.null Json.null Json.null Json.null _ _ rfl rfl (le_refl 0)

/-- **C6**: in the two-task interleaving model of `modify_page`'s
`async with self.lock_edit` region, no reachable state has both tasks
inside the token-acquisition-to-submission critical section. -/
theorem modify_page_mutual_exclusion (s : LockSys) (h : Reachable s) :
    ¬(s.pA.inCritical = true ∧ s.pB.inCritical = true) := by
  rintro ⟨hA, hB⟩
  have hinv := reachable_lockInv s h
  have h1 := hinv.1 hA
  have h2 := hinv.2 hB
  rw [h1] at h2
  exact absurd h2 (by simp)

/-- Witness for `modify_page_mutual_exclusion`: the state reached after
task A acquires the lock. -/
theorem modify_page_mutual_exclusion_wit :
    ¬((Phase.throttle).inCritical = true ∧ (Phase.start).inCritical = true) :=
  modify_page_mutual_exclusion ⟨some false, Phase.throttle, Phase.start⟩
    (Relation.ReflTransGen.single (LockStep.acquireA initSys rfl rfl))

/-- **C7 counterexample**: with `last_edit = 0` and the clock at `0` on
entry, the full wait of 10 units happens and the code records
`last_edit = 10` — the clock re-read *after* the sleep (line 179) — not
`0`, the wall-clock read used for the elapsed-time check (line 175).
The claim that the post-wait timestamp comes from the same read as the
check is therefore false. -/
theorem modify_page_fresh_clock_cex :
    (modify_page "edit" [] ⟨"https://w/api.php", false, 0⟩ 0 Json.null
        Json.null).state.last_edit = 10 ∧ ((10 : ℚ) ≠ 0) := by
  constructor
  · rw [modify_page_state_eq]
    show nextStamp 0 0 = 10
    rw [nextStamp_eq_max]
    rw [max_eq_left (by norm_num [THROTTLE])]
    norm_num [THROTTLE]
  · norm_num

/-- **C7** (amended): the post-wait `last_edit` is taken from a fresh
clock read after the sleep completes: when a wait happens it equals the
entry clock plus the slept duration (and so differs from the
elapsed-check read), and without a wait it equals the entry clock. -/
theorem modify_page_stamp_fresh_read (a : String) (d : Dict) (st : ClientState)
    (c : ℚ) (tr pr : Json) :
    (c - st.last_edit < THROTTLE →
      (modify_page a d st c tr pr).state.last_edit =
        c + (THROTTLE - (c - st.last_edit)) ∧
      (modify_page a d st c tr pr).state.last_edit ≠ c) ∧
    (THROTTLE ≤ c - st.last_edit →
      (modify_page a d st c tr pr).state.last_edit = c) := by
  constructor
  · intro h
    constructor
    · simp only [modify_page_state_eq]
      unfold nextStamp
      rw [if_pos h]
    · simp only [modify_page_state_eq]
      unfold nextStamp
      rw [if_pos h]
      intro habs
      linarith
  · intro h
    simp only [modify_page_state_eq]
    unfold nextStamp
    rw [if_neg (by linarith)]

/-- Witness for `modify_page_stamp_fresh_read` at the concrete call of
the counterexample. -/
theorem modify_page_stamp_fresh_read_wit :
    (modify_page "edit" [] ⟨"https://w/api.php", false, 0⟩ 0 Json.null
        Json.null).state.last_edit = 0 + (THROTTLE - ((0 : ℚ) - 0)) ∧
    (modify_page "edit" [] ⟨"https://w/api.php", false, 0⟩ 0 Json.null
        Json.null).state.last_edit ≠ 0 :=
  (modify_page_stamp_fresh_read "edit" [] ⟨"https://w/api.php", false, 0⟩ 0
      Json.null Json.null).1 (by norm_num [THROTTLE])

/-- **C9**: when `modify_page` raises `EditError`, `last_edit` has
already been stamped with the post-wait attempt time and is not rolled
back: it equals the clock at return and exceeds the previous stamp by at
least `THROTTLE`, so the failed attempt still counts toward pacing. -/
theorem modify_page_no_rollback (a : String) (d : Dict) (st : ClientState)
    (c : ℚ) (tr pr : Json) (i : Json)
    (h : (modify_page a d st c tr pr).result = Except.error (Exc.editError i)) :
    (modify_page a d st c tr pr).state.last_edit = nextStamp st.last_edit c ∧
    (modify_page a d st c tr pr).state.last_edit = (modify_page a d st c tr pr).clock ∧
    st.last_edit + THROTTLE ≤ (modify_page a d st c tr pr).state.last_edit := by
  refine ⟨?_, ?_, ?_⟩
  · simp only [modify_page_state_eq]
  · simp only [modify_page_state_eq, modify_page_clock_eq]
  · simp only [modify_page_state_eq]
    rw [nextStamp_eq_max]
    exact le_max_left _ _

/-- Witness for `modify_page_no_rollback` at a concrete rejected edit. -/
theorem modify_page_no_rollback_wit :
    (modify_page "edit" [] ⟨"https://w/api.php", false, 0⟩ 0 Json.null
        (Json.obj [("error", Json.obj [("info", Json.str "denied")])])).state.last_edit =
      nextStamp 0 0 :=
  (modify_page_no_rollback "edit" [] ⟨"https://w/api.php", false, 0⟩ 0 Json.null
      (Json.obj [("error", Json.obj [("info", Json.str "denied")])])
      (Json.str "denied") rfl).1

end Aiowiki
